import Mathlib

/-!
Verification of the elf2dos ELF→LE converter against its specification.

The definitions below are a shallow embedding of the Go sources:
  - `module/write.go` (the LE serializer: `objdata`, `appendFixup`,
    `fixupdata`, `pagedata`, `Program.dumpBlocks`),
  - `module/read.go` (the validity check on `LastPageSize`),
  - the `elf` package (`addrRange`, `resolveAddr`, `resolveSymbols`,
    `addRelocation`).

Machine integers are modeled as `Nat` (for Go `uint32`) and `Int` (for Go
`int32`), with wrap-around made explicit through the helpers below.
-/

namespace Elf2Dos

/-- 2^32 reduction for Go `uint32` arithmetic. -/
def u32 (n : Nat) : Nat := n % 4294967296

/-- Go `uint32` subtraction `a - b` (wraps modulo 2^32). -/
def u32sub (a b : Nat) : Nat := ((((a : Int) - (b : Int)) % 4294967296)).toNat

/-- Reinterpret a `uint32` value as Go `int32` (two's complement). -/
def toInt32 (n : Nat) : Int :=
  if n % 4294967296 < 2147483648 then ((n % 4294967296 : Nat) : Int)
  else ((n % 4294967296 : Nat) : Int) - 4294967296

/-- Go `int32` wrap-around for results of signed arithmetic. -/
def wrap32 (x : Int) : Int := (x + 2147483648) % 4294967296 - 2147483648

/-- Go `byte(x)` for a signed value: low 8 bits. -/
def u8ofInt (x : Int) : Nat := (x % 256).toNat

/-- Go `uint16(x)` for a signed value: low 16 bits. -/
def u16ofInt (x : Int) : Nat := (x % 65536).toNat

/-- Go `uint32(x)` for a signed value: low 32 bits. -/
def u32ofInt (x : Int) : Nat := (x % 4294967296).toNat

/-- `binary.LittleEndian.PutUint16`: the two bytes of a `uint16`. -/
def le2 (n : Nat) : List Nat := [n % 256, n / 256 % 256]

/-- `binary.LittleEndian.PutUint32`: the four bytes of a `uint32`. -/
def le4 (n : Nat) : List Nat := [n % 256, n / 256 % 256, n / 65536 % 256, n / 16777216 % 256]

/-- Go arithmetic right shift `x >> n` on a signed value (floor division). -/
def sar (x : Int) (n : Nat) : Int := Int.fdiv x (2 ^ n)

/-- `binary.LittleEndian.Uint32(data[i:])`.  The source would panic on a
read past the end of the slice; out-of-range bytes are modeled as 0. -/
def leU32 (data : List Nat) (i : Nat) : Nat :=
  data.getD i 0 + 256 * data.getD (i + 1) 0 + 65536 * data.getD (i + 2) 0 +
    16777216 * data.getD (i + 3) 0

-- =================================================================================================
-- module/write.go and the LE data model (module package)

/-- `pageBits` from module/write.go. -/
def pageBits : Nat := 12

/-- `pageSize` from module/write.go. -/
def pageSize : Nat := 4096

/-- `pagecount` from module/write.go: `(size + pageSize - 1) >> pageBits`
on `uint32`. -/
def pagecount (size : Nat) : Nat := u32 (size + pageSize - 1) >>> pageBits

/-- `module.Ref`: a reference to an address in the program. -/
structure Ref where
  obj : Int
  off : Int
deriving DecidableEq, Repr

/-- `module.SrcType` value `SrcOffset32`. -/
def srcOffset32 : Nat := 7

/-- `module.SrcType` value `SrcRelative32`. -/
def srcRelative32 : Nat := 8

/-- `module.Fixup`: a single fixup record. -/
structure Fixup where
  srcType : Nat
  src : Int
  target : Ref
  add : Int
deriving DecidableEq, Repr

/-- `module.Object` (fields `Flags`, `Size`, `Addr`, `Data`, `Fixups`). -/
structure Object where
  flags : Nat
  size : Nat
  addr : Nat
  data : List Nat
  fixups : List Fixup
deriving DecidableEq, Repr

/-- `module.Program` (fields `Entry`, `Stack`, `Objects`). -/
structure Program where
  entry : Ref
  stack : Ref
  objects : List Object
deriving DecidableEq, Repr

/-- State of the `objdata` builder: the object table and the object-page
table, both as byte lists. -/
structure ObjData where
  object : List Nat
  page : List Nat
deriving DecidableEq, Repr

/-- One 4-byte object-page-table slot `[0, byte(idx>>8), byte(idx&0xff), 0]`
appended per entry of `fixup` in `objdata.write`. -/
def objPageSlots (fixup : List Nat) : List Nat :=
  fixup.foldl (fun acc idx => acc ++ [0, idx >>> 8 % 256, idx % 256, 0]) []

/-- `objdata.write` from module/write.go.  The 24-byte record holds size,
address, flags, and — only when `fixup` is nonempty — the 1-based page-table
index and the entry count.  The `first`/`count` arguments are accepted and
ignored, exactly as in the source. -/
def objdataWrite (d : ObjData) (obj : Object) (fixup : List Nat)
    (first count : Nat) : ObjData :=
  let _ := first
  let _ := count
  if fixup.length ≠ 0 then
    let od := le4 (u32 obj.size) ++ le4 (u32 obj.addr) ++ le4 (u32 obj.flags) ++
      le4 (u32 (d.page.length / 4 + 1)) ++ le4 (u32 fixup.length) ++ le4 0
    { object := d.object ++ od, page := d.page ++ objPageSlots fixup }
  else
    let od := le4 (u32 obj.size) ++ le4 (u32 obj.addr) ++ le4 (u32 obj.flags) ++
      le4 0 ++ le4 0 ++ le4 0
    { object := d.object ++ od, page := d.page }

/-- `appendFixup` from module/write.go: encode one fixup record and append
it to `data`.  Flag `0x10` (32-bit target offset) is set iff
`f.Target.Off > 0x7fff` as a signed comparison; otherwise the target offset
is truncated to 16 bits. -/
def appendFixup (f : Fixup) (data : List Nat) : List Nat :=
  let flags : Nat := if 32767 < f.target.off then 16 else 0
  let head : List Nat :=
    [f.srcType % 256, flags] ++ le2 (u16ofInt f.src) ++ [u8ofInt f.target.obj]
  let tail : List Nat :=
    if 32767 < f.target.off then le4 (u32ofInt f.target.off)
    else le2 (u16ofInt f.target.off)
  data ++ head ++ tail

/-- State of the `fixupdata` builder: the fixup page table and the fixup
record table, both as byte lists. -/
structure FixupData where
  pages : List Nat
  records : List Nat
deriving DecidableEq, Repr

/-- A Go counted loop `for off := start; off < bound; off += step`
(`step > 0`), as the list of values the loop variable takes.  The `fuel`
argument only makes the recursion structural (so that the definition
evaluates inside the kernel); any fuel of at least the number of iterations
yields the same list. -/
def intLoop (fuel : Nat) (off bound step : Int) : List Int :=
  match fuel with
  | 0 => []
  | n + 1 => if off < bound then off :: intLoop n (off + step) bound step else []

/-- The loop `for off := int32(0); off < 3; off += 3` in the counting pass
of `fixupdata.write` (it executes exactly one iteration, with `off = 0`). -/
def offsLt3Step3 : List Int := intLoop 4 0 3 3

/-- The loop `for off := int32(0); off < 4; off += 4` in the assignment pass
of `fixupdata.write` (it executes exactly one iteration, with `off = 0`). -/
def offsLt4Step4 : List Int := intLoop 5 0 4 4

/-- Pages a fixup at `src` is counted into by the counting pass: for each
`off` produced by the loop, `pi = (src+off) >> pageBits` passes the guard
`pi > last && pi < npage`, where `last` is initialized to `-1` and never
reassigned in the source. -/
def touchPagesCount (npage : Int) (src : Int) : List Int :=
  offsLt3Step3.filterMap fun off =>
    let pi := sar (wrap32 (src + off)) pageBits
    if -1 < pi ∧ pi < npage then some pi else none

/-- Pages a fixup at `src` is assigned to by the assignment pass (same guard
as the counting pass, with the `off < 4; off += 4` loop). -/
def touchPagesAssign (npage : Int) (src : Int) : List Int :=
  offsLt4Step4.filterMap fun off =>
    let pi := sar (wrap32 (src + off)) pageBits
    if -1 < pi ∧ pi < npage then some pi else none

/-- The counting sort in `fixupdata.write` (count, prefix-sum, assign,
slice) stably partitions the fixups by assigned page; `bucket npage fixups
pi` is page `pi`'s slice of the `assigned` array, in input order. -/
def bucket (npage : Int) (fixups : List Fixup) (pi : Int) : List Fixup :=
  fixups.filter fun f => (touchPagesAssign npage f.src).contains pi

/-- The `maxOff` scan of `fixupdata.write`: largest `f.Src + 3` (int32),
starting from `-1`. -/
def maxOffOf (fixups : List Fixup) : Int :=
  fixups.foldl (fun m f => let off := wrap32 (f.src + 3); if off > m then off else m) (-1)

/-- The page count used by `fixupdata.write`: `int32(pagecount(size))`,
extended to `(maxOff >> pageBits) + 1` when that is larger. -/
def npageOf (size : Nat) (fixups : List Fixup) : Int :=
  let npage := toInt32 (pagecount size)
  let n := sar (maxOffOf fixups) pageBits + 1
  if n > npage then n else npage

/-- Body of the emission loop `for pi, idx := range idxs` in
`fixupdata.write`: record the 1-based table position, emit page `pi`'s
records with `src` rebased to the page (`f.Src -= base`), then append the
4-byte end offset `uint32(len(records))`.  The dead store `idxs[pi] = 0`
in the source is immediately overwritten and therefore omitted. -/
def fixupPageStep (npage : Int) (fixups : List Fixup)
    (acc : List Nat × List Nat × List Nat) (pi : Nat) : List Nat × List Nat × List Nat :=
  let (pages, records, idxs) := acc
  let idx := pages.length / 4
  let base := toInt32 (u32 (pi * 2 ^ pageBits))
  let records' := (bucket npage fixups (pi : Int)).foldl
    (fun recs f => appendFixup { f with src := wrap32 (f.src - base) } recs) records
  (pages ++ le4 (u32 records'.length), records', idxs ++ [idx])

/-- `fixupdata.write` from module/write.go.  Returns the updated builder
state and the per-page fixup record indexes handed to `objdata.write`. -/
def fixupdataWrite (d : FixupData) (size : Nat) (fixups : List Fixup) :
    FixupData × List Nat :=
  if size = 0 then (d, [])
  else if maxOffOf fixups < 0 then (d, [])
  else
    let npage := npageOf size fixups
    let pages0 := if d.pages.length = 0 then List.replicate 4 0 else d.pages
    let r := (List.range npage.toNat).foldl (fixupPageStep npage fixups)
      (pages0, d.records, [])
    ({ pages := r.1, records := r.2.1 }, r.2.2)

/-- State of the `pagedata` builder: emitted page count, bytes used on the
last started page, and the list of data blocks. -/
structure PageData where
  count : Nat
  offset : Nat
  data : List (List Nat)
deriving DecidableEq, Repr

/-- `pagedata.write` from module/write.go.  Returns the updated state and
the `(first, count)` pair for the object. -/
def pagedataWrite (d : PageData) (data : List Nat) : PageData × Nat × Nat :=
  let count := pagecount (u32 data.length)
  if count ≠ 0 then
    let first := d.count + 1
    let blocks :=
      if d.offset ≠ 0 then d.data ++ [List.replicate (pageSize - d.offset) 0]
      else d.data
    ({ count := d.count + count,
       offset := u32 data.length % pageSize,
       data := blocks ++ [data] }, first, count)
  else (d, 0, 0)

/-- Body of the per-object loop of `Program.dumpBlocks`: feed one object to
the three builders. -/
def dumpStep (st : ObjData × FixupData × PageData) (obj : Object) :
    ObjData × FixupData × PageData :=
  let (od, fd, pd) := st
  let (pd', first, count) := pagedataWrite pd obj.data
  let (fd', fixup) := fixupdataWrite fd obj.size obj.fixups
  (objdataWrite od obj fixup first count, fd', pd')

/-- The per-object loop of `Program.dumpBlocks`: thread the three builders
over the objects in order. -/
def dumpState (objs : List Object) : ObjData × FixupData × PageData :=
  objs.foldl dumpStep (⟨[], []⟩, ⟨[], []⟩, ⟨0, 0, []⟩)

/-- Header field 0x2C ("bytes on last page") as written by
`Program.dumpBlocks`: `pagedata.offset`. -/
def lastPageSizeField (objs : List Object) : Nat := (dumpState objs).2.2.offset

/-- The fixup page table bytes written by `Program.dumpBlocks`
(`fixupdata.pages`). -/
def fixupPageTableBytes (objs : List Object) : List Nat := (dumpState objs).2.1.pages

/-- The fixup record bytes written by `Program.dumpBlocks`
(`fixupdata.records`). -/
def fixupRecordBytes (objs : List Object) : List Nat := (dumpState objs).2.1.records

/-- The object-page table bytes written by `Program.dumpBlocks`
(`objdata.page`). -/
def objectPageTableBytes (objs : List Object) : List Nat := (dumpState objs).1.page

/-- The `LastPageSize` validity check of `module.Open` (module/read.go):
`readProgram` fails when `h.LastPageSize == 0 || h.LastPageSize > PageSize`. -/
def lastPageSizeOK (n : Nat) : Bool := !(n == 0 || decide (n > pageSize))

-- =================================================================================================
-- The elf package (segment assignment, symbol resolution, relocation translation)

/-- `addrRange`: a range of addresses in the ELF file. -/
structure AddrRange where
  addr : Nat
  size : Nat
deriving DecidableEq, Repr

/-- `addrRange.hasAddr`: containment with an inclusive upper bound
(`x.addr <= addr && addr <= x.addr+x.size`, `uint32` addition). -/
def AddrRange.hasAddr (x : AddrRange) (a : Nat) : Bool :=
  decide (x.addr ≤ a) && decide (a ≤ u32 (x.addr + x.size))

/-- `addrRange.contains`: `x.addr <= y.addr && y.addr+y.size <= x.addr+x.size`
(`uint32` additions). -/
def AddrRange.containsRange (x y : AddrRange) : Bool :=
  decide (x.addr ≤ y.addr) && decide (u32 (y.addr + y.size) ≤ u32 (x.addr + x.size))

/-- Loop body of `resolveAddr`: scan for the first segment range whose
`hasAddr` accepts `a`; the reference is `(i+1, int32(addr - s.addr))`, or
the zero `Ref` when no segment matches. -/
def resolveAddrGo (i : Nat) (segs : List AddrRange) (a : Nat) : Ref :=
  match segs with
  | [] => ⟨0, 0⟩
  | s :: rest =>
    if s.hasAddr a then ⟨(i : Int) + 1, toInt32 (u32sub a s.addr)⟩
    else resolveAddrGo (i + 1) rest a

/-- `resolveAddr` from the elf package: resolve an ELF address as an LE/LX
object reference. -/
def resolveAddr (segs : List AddrRange) (a : Nat) : Ref := resolveAddrGo 0 segs a

/-- A converter-side segment: its address range and payload (the object
fields that `addRelocation` reads). -/
structure Segment where
  addr : Nat
  size : Nat
  data : List Nat
deriving DecidableEq, Repr

/-- The resolution of an ELF symbol (`symbol` in the source): the raw ELF
value, the LE/LX reference, and the name (modeled as an opaque identifier). -/
structure SymbolRes where
  addr : Nat
  ref : Ref
  name : Nat
deriving DecidableEq, Repr

/-- `elf.Rel32`: a relocation entry. -/
structure Rel32 where
  off : Nat
  info : Nat
deriving DecidableEq, Repr

/-- `objAbsolute`: placeholder object index for absolute symbols
(`int32(^uint32(0) >> 1) = 0x7FFFFFFF`). -/
def objAbsolute : Int := 2147483647

/-- Errors raised by the translation stage.  Each constructor corresponds
to one `fmt.Errorf`/`errors.New` site in the source. -/
inductive ConvError where
  | symbolOutOfBounds
  | unresolvedSymbol
  | invalidSection
  | unsupportedRelocation
deriving DecidableEq, Repr

/-- The segment-search loop at the top of `addRelocation`: first segment
whose range contains `[rel.Off, rel.Off+4)`, with its 1-based index. -/
def findSourceSegmentGo (i : Int) (segs : List Segment) (r : AddrRange) :
    Option (Int × Segment) :=
  match segs with
  | [] => none
  | s :: rest =>
    if AddrRange.containsRange ⟨s.addr, s.size⟩ r then some (i, s)
    else findSourceSegmentGo (i + 1) rest r

/-- Locate the source object of a relocation (`srcObj`/`seg` in
`addRelocation`). -/
def findSourceSegment (segs : List Segment) (r : AddrRange) : Option (Int × Segment) :=
  findSourceSegmentGo 1 segs r

/-- `syms[rsym-1]` in `addRelocation` (guarded by the bounds check, so the
default is never reached on the paths the source takes). -/
def symLookup (syms : List SymbolRes) (rsym : Nat) : SymbolRes :=
  syms.getD (rsym - 1) ⟨0, ⟨0, 0⟩, 0⟩

/-- `addRelocation` from the elf package (src/unnamed/part_001; the older
copy in src/elf.go is identical except that it lacks the `objAbsolute`
skip).  Returns `some (srcObj, fixup)` when a fixup is appended to object
`srcObj`, `none` when the relocation is silently skipped. -/
def addRelocation (rel : Rel32) (segs : List Segment) (syms : List SymbolRes) :
    Except ConvError (Option (Int × Fixup)) :=
  match findSourceSegment segs ⟨rel.off, 4⟩ with
  | none => .ok none
  | some (srcObj, seg) =>
    let rsym := rel.info >>> 8
    if rsym = 0 ∨ syms.length < rsym then .error ConvError.symbolOutOfBounds
    else
      let sym := symLookup syms rsym
      if sym.ref.obj = 0 then .error ConvError.unresolvedSymbol
      else if sym.ref.obj = objAbsolute then .ok none
      else
        let srcOff := toInt32 (u32sub rel.off seg.addr)
        let val := leU32 seg.data srcOff.toNat
        let rtype := rel.info % 256
        if rtype = 1 then
          .ok (some (srcObj,
            { srcType := srcOffset32, src := srcOff,
              target := { obj := sym.ref.obj,
                          off := wrap32 (sym.ref.off + toInt32 (u32sub val sym.addr)) },
              add := 0 }))
        else if rtype = 2 then
          if sym.ref.obj = srcObj then .ok none
          else
            .ok (some (srcObj,
              { srcType := srcRelative32, src := srcOff,
                target := { obj := sym.ref.obj,
                            off := wrap32 (sym.ref.off +
                              toInt32 (u32sub (val + rel.off + 4) sym.addr)) },
                add := 0 }))
        else .error ConvError.unsupportedRelocation

/-- An ELF section as `resolveSymbols` sees it (only the address is read). -/
structure ElfSection where
  addr : Nat
deriving DecidableEq, Repr

/-- An ELF symbol as `resolveSymbols` sees it: value, section index (a Go
`int`-typed `elf.SectionIndex`), and name (opaque identifier). -/
structure ElfSym where
  value : Nat
  section_ : Int
  name : Nat
deriving DecidableEq, Repr

/-- A segment as seen by the section-to-object map in `resolveSymbols`:
range plus the stored ELF program-header index (`segment.index`). -/
structure SegmentIdx where
  addr : Nat
  size : Nat
  index : Nat
deriving DecidableEq, Repr

/-- `elf.SHN_ABS` (0xfff1). -/
def SHN_ABS : Int := 65521

/-- The section-to-object scan in `resolveSymbols`: first segment with
`seg.addr <= offset && offset < seg.addr+seg.size` yields `seg.index`,
otherwise `-1`. -/
def sectionObject (segs : List SegmentIdx) (offset : Nat) : Int :=
  match segs with
  | [] => -1
  | s :: rest =>
    if s.addr ≤ offset ∧ offset < u32 (s.addr + s.size) then (s.index : Int)
    else sectionObject rest offset

/-- Loop body of `resolveSymbols` (src/unnamed/part_001) for one symbol.
The first branch indexes `segs[obj]`; when `obj` is `-1` or out of range the
source panics, which is modeled here with a zero default segment. -/
def resolveOneSymbol (secObjects : List Int) (segs : List SegmentIdx)
    (sym : ElfSym) : Except ConvError SymbolRes :=
  if 0 ≤ sym.section_ ∧ sym.section_ < (secObjects.length : Int) then
    let obj := secObjects.getD sym.section_.toNat (-1)
    let seg := segs.getD obj.toNat ⟨0, 0, 0⟩
    .ok ⟨sym.value, ⟨obj + 1, toInt32 (u32sub sym.value seg.addr)⟩, sym.name⟩
  else if sym.section_ = SHN_ABS then
    .ok ⟨sym.value, ⟨objAbsolute, 0⟩, sym.name⟩
  else .error ConvError.invalidSection

/-- `resolveSymbols` from the elf package: map sections to objects, then
resolve every symbol. -/
def resolveSymbols (sections : List ElfSection) (segs : List SegmentIdx)
    (syms : List ElfSym) : Except ConvError (List SymbolRes) :=
  let secObjects := sections.map fun s => sectionObject segs s.addr
  syms.mapM (resolveOneSymbol secObjects segs)

-- =================================================================================================
-- Spec-side notion and concrete inputs used by the claim theorems

/-- Notion used by the spec (not the code): the number of 4 KiB pages of an
object that contain at least one byte of some fixup's 4-byte span
`[src, src+4)`. -/
def specPagesWithFixups (size : Nat) (fixups : List Fixup) : Nat :=
  ((List.range (pagecount size)).filter fun pi =>
    fixups.any fun f =>
      decide (f.src < ((pi : Int) + 1) * 4096) && decide ((pi : Int) * 4096 < f.src + 4)).length

/-- Scenario S5: a single `R_386_32` fixup at `src = 4094` whose 4-byte span
straddles the page-0/page-1 boundary. -/
def straddleFix : Fixup := ⟨srcOffset32, 4094, ⟨1, 0⟩, 0⟩

/-- A two-page object with a single fixup on its first page. -/
def twoPageObj : Object := ⟨0x2005, 8192, 0, [], [⟨srcOffset32, 0, ⟨1, 0⟩, 0⟩]⟩

/-- An object whose data fills its final (only) page exactly. -/
def fullPageObj : Object := ⟨0x2005, 4096, 65536, List.replicate 4096 0, []⟩

/-- Scenario S1: a 64-byte object with no fixups. -/
def smallObj : Object := ⟨0x2005, 64, 65536, List.replicate 64 7, []⟩

-- =================================================================================================
-- Helper lemmas

theorem objPageSlots_foldl_length (l : List Nat) (acc : List Nat) :
    (l.foldl (fun acc idx => acc ++ [0, idx >>> 8 % 256, idx % 256, 0]) acc).length =
      acc.length + 4 * l.length := by
  induction l generalizing acc with
  | nil => simp
  | cons x xs ih =>
    simp only [List.foldl_cons, ih, List.length_append, List.length_cons]
    simp
    omega

theorem objPageSlots_length (fixup : List Nat) :
    (objPageSlots fixup).length = 4 * fixup.length := by
  simpa using objPageSlots_foldl_length fixup []

theorem fixupPageStep_foldl_idxs_length (npage : Int) (fixups : List Fixup)
    (l : List Nat) (acc : List Nat × List Nat × List Nat) :
    ((l.foldl (fixupPageStep npage fixups) acc).2.2).length = acc.2.2.length + l.length := by
  induction l generalizing acc with
  | nil => simp
  | cons x xs ih =>
    obtain ⟨p, r, i⟩ := acc
    rw [List.foldl_cons, ih]
    simp [fixupPageStep]
    omega

theorem fixupdataWrite_nil (d : FixupData) (size : Nat) :
    fixupdataWrite d size [] = (d, []) := by
  unfold fixupdataWrite
  split
  · rfl
  · split
    · rfl
    · rename_i hm
      exact absurd (by norm_num [maxOffOf] : maxOffOf [] < 0) hm

theorem dumpStep_fixupdata (st : ObjData × FixupData × PageData) (obj : Object)
    (h : obj.fixups = []) : (dumpStep st obj).2.1 = st.2.1 := by
  obtain ⟨od, fd, pd⟩ := st
  simp only [dumpStep, h, fixupdataWrite_nil]

theorem dumpStep_pagedata (st : ObjData × FixupData × PageData) (obj : Object) :
    (dumpStep st obj).2.2 = (pagedataWrite st.2.2 obj.data).1 := by
  obtain ⟨od, fd, pd⟩ := st
  rfl

theorem dumpState_foldl_fixupdata (objs : List Object)
    (st : ObjData × FixupData × PageData) (h : ∀ o ∈ objs, o.fixups = []) :
    (objs.foldl dumpStep st).2.1 = st.2.1 := by
  induction objs generalizing st with
  | nil => rfl
  | cons o os ih =>
    simp only [List.foldl_cons]
    rw [ih _ fun x hx => h x (List.mem_cons_of_mem _ hx)]
    exact dumpStep_fixupdata st o (h o (List.mem_cons_self _ _))

theorem u32_eq_of_lt {n : Nat} (h : n < 4294967296) : u32 n = n :=
  Nat.mod_eq_of_lt h

theorem toInt32_u32sub {a b : Nat} (hle : b ≤ a) (hlt : a - b < 2147483648) :
    toInt32 (u32sub a b) = ((a : Int) - (b : Int)) := by
  have h1 : u32sub a b = a - b := by
    unfold u32sub
    omega
  rw [h1]
  unfold toInt32
  rw [if_pos]
  · omega
  · omega

theorem findSourceSegmentGo_containsRange (segs : List Segment) (r : AddrRange)
    (i j : Int) (seg : Segment)
    (h : findSourceSegmentGo i segs r = some (j, seg)) :
    AddrRange.containsRange ⟨seg.addr, seg.size⟩ r = true := by
  induction segs generalizing i with
  | nil => simp [findSourceSegmentGo] at h
  | cons s rest ih =>
    unfold findSourceSegmentGo at h
    split at h
    · have hs : s = seg := (by simpa using h : i = j ∧ s = seg).2
      subst hs
      assumption
    · exact ih (i + 1) h

theorem resolveAddrGo_append (pre : List AddrRange) (s : AddrRange)
    (post : List AddrRange) (a : Nat) (i : Nat)
    (h : ∀ p ∈ pre, p.hasAddr a = false) (hs : s.hasAddr a = true) :
    resolveAddrGo i (pre ++ s :: post) a =
      ⟨((i + pre.length + 1 : Nat) : Int), toInt32 (u32sub a s.addr)⟩ := by
  induction pre generalizing i with
  | nil =>
    simp only [List.nil_append, resolveAddrGo, hs, if_true]
    simp
  | cons p ps ih =>
    have hp := h p (List.mem_cons_self _ _)
    rw [List.cons_append]
    unfold resolveAddrGo
    rw [hp]
    simp only [Bool.false_eq_true, if_false]
    rw [ih (i + 1) fun q hq => h q (List.mem_cons_of_mem _ hq)]
    congr 1
    simp
    omega

-- =================================================================================================
-- Claim theorems

/-- C1: the claim says a fixup whose 4-byte span straddles a page boundary
is emitted into the bucket of every page the span touches.  The code does
not do this: for an 8192-byte object with a single fixup at `src = 4094`
(whose span reaches page 1, as the first conjunct shows), the fixup is
assigned only to page 0, page 1's bucket is empty, and exactly one 7-byte
record is emitted (with page-local `src = 4094`; no record with `src = -2`
exists).  The fixup page table shows both page entries with end offsets 7. -/
theorem c1_straddle_eval :
    sar (straddleFix.src + 3) pageBits = 1 ∧
    touchPagesAssign (npageOf 8192 [straddleFix]) straddleFix.src = [0] ∧
    bucket (npageOf 8192 [straddleFix]) [straddleFix] 0 = [straddleFix] ∧
    bucket (npageOf 8192 [straddleFix]) [straddleFix] 1 = [] ∧
    fixupdataWrite ⟨[], []⟩ 8192 [straddleFix] =
      (⟨[0, 0, 0, 0, 7, 0, 0, 0, 7, 0, 0, 0], [7, 0, 254, 15, 1, 0, 0]⟩, [1, 2]) := by
  decide

/-- C2 counterexample: for a two-page object with a single fixup on page 0,
the claim predicts one 4-byte object-page-table slot (one page with
fixups), but the serializer appends a slot for every page: the table is 8
bytes, not `4 × 1`. -/
theorem c2_counterexample :
    objectPageTableBytes [twoPageObj] = [0, 0, 1, 0, 0, 0, 2, 0] ∧
    specPagesWithFixups 8192 twoPageObj.fixups = 1 ∧
    (objectPageTableBytes [twoPageObj]).length ≠
      4 * specPagesWithFixups 8192 twoPageObj.fixups := by
  decide

/-- C2 amended: whenever an object's fixup list yields `maxOff ≥ 0` (any
fixup present with `src + 3 ≥ 0`) and its size is nonzero, `fixupdata.write`
returns one index per page — all `npage` pages, not only pages with fixups —
and `objdata.write` appends exactly `4 × len(fixup)` object-page-table
bytes; an object with an empty fixup list contributes no indexes and hence
no slots. -/
theorem c2_amended :
    (∀ (d : ObjData) (obj : Object) (fixup : List Nat) (first count : Nat),
      ((objdataWrite d obj fixup first count).page).length =
        d.page.length + 4 * fixup.length) ∧
    (∀ (d : FixupData) (size : Nat) (fixups : List Fixup),
      size ≠ 0 → 0 ≤ maxOffOf fixups →
      ((fixupdataWrite d size fixups).2).length = (npageOf size fixups).toNat) ∧
    (∀ (d : FixupData) (size : Nat), (fixupdataWrite d size []).2 = []) := by
  refine ⟨?_, ?_, ?_⟩
  · intro d obj fixup first count
    unfold objdataWrite
    split
    · simp [objPageSlots_length]
    · rename_i hl
      simp at hl
      simp [hl]
  · intro d size fixups hsize hmax
    unfold fixupdataWrite
    rw [if_neg hsize, if_neg (by omega : ¬ maxOffOf fixups < 0)]
    simp only [fixupPageStep_foldl_idxs_length, List.length_range, List.length_nil,
      Nat.zero_add]
  · intro d size
    rw [fixupdataWrite_nil]

/-- C2 amended, witness at the counterexample object. -/
theorem c2_amended_witness :
    ((objdataWrite ⟨[], []⟩ twoPageObj [1, 2] 0 0).page).length =
      ([] : List Nat).length + 4 * ([1, 2] : List Nat).length ∧
    ((fixupdataWrite ⟨[], []⟩ 8192 twoPageObj.fixups).2).length =
      (npageOf 8192 twoPageObj.fixups).toNat ∧
    (fixupdataWrite ⟨[], []⟩ 8192 []).2 = [] :=
  ⟨c2_amended.1 ⟨[], []⟩ twoPageObj [1, 2] 0 0,
   c2_amended.2.1 ⟨[], []⟩ 8192 twoPageObj.fixups (by decide) (by decide),
   c2_amended.2.2 ⟨[], []⟩ 8192⟩

/-- C3: the claim says the last-page-size header field lies in
`[1, PAGE_SIZE]` and equals `PAGE_SIZE` when the final data page is exactly
full.  The code writes `pagedata.offset = len(data) mod 4096`, which is `0`
for a full final page — a value the repository's own reader
(`module.Open`) rejects as "invalid last page size". -/
theorem c3_lastpage_eval :
    lastPageSizeField [fullPageObj] = 0 ∧
    ¬(1 ≤ lastPageSizeField [fullPageObj] ∧ lastPageSizeField [fullPageObj] ≤ pageSize) ∧
    lastPageSizeOK (lastPageSizeField [fullPageObj]) = false := by
  have hlen : fullPageObj.data.length = 4096 := by
    rw [show fullPageObj.data = List.replicate 4096 0 from rfl, List.length_replicate]
  have h : lastPageSizeField [fullPageObj] = 0 := by
    unfold lastPageSizeField dumpState
    rw [List.foldl_cons, List.foldl_nil, dumpStep_pagedata]
    unfold pagedataWrite
    rw [if_pos]
    · simp only []
      rw [hlen]
      decide
    · rw [hlen]
      decide
  refine ⟨h, ?_, ?_⟩
  · rw [h]
    omega
  · rw [h]
    rfl

/-- C4 counterexample: in the minimal one-object scenario with zero
relocations, the claim predicts a fixup page table of
`page_count(virtual_size)` zero entries plus one sentinel entry (8 bytes; or
4 bytes on the "empty table with one sentinel" reading).  The code emits a
zero-length fixup page table — no entries and no sentinel. -/
theorem c4_counterexample :
    fixupPageTableBytes [smallObj] = [] ∧
    (fixupPageTableBytes [smallObj]).length ≠ 4 * (pagecount smallObj.size + 1) ∧
    (fixupPageTableBytes [smallObj]).length ≠ 4 := by
  decide

/-- C4 amended: when every object has an empty fixup list, `fixupdata.write`
returns early before touching its buffers, so the serialized fixup page
table and fixup record table are both empty (zero bytes, no sentinel). -/
theorem c4_amended (objs : List Object) (h : ∀ o ∈ objs, o.fixups = []) :
    fixupPageTableBytes objs = [] ∧ fixupRecordBytes objs = [] := by
  have hfold := dumpState_foldl_fixupdata objs (⟨[], []⟩, ⟨[], []⟩, ⟨0, 0, []⟩) h
  constructor
  · unfold fixupPageTableBytes dumpState
    rw [hfold]
  · unfold fixupRecordBytes dumpState
    rw [hfold]

/-- C4 amended, witness at the S1 object. -/
theorem c4_amended_witness :
    fixupPageTableBytes [smallObj] = [] ∧ fixupRecordBytes [smallObj] = [] :=
  c4_amended [smallObj] (by decide)

/-- C10: `appendFixup` emits the 9-byte long form (flag `0x10`) exactly when
`target.off > 0x7fff` under the signed comparison; consequently a negative
target offset is emitted in the 7-byte short form, with a zero flags byte
and the offset truncated to its low 16 bits (`off mod 2^16`), losing its
sign. -/
theorem c10_fixup_encoding (f : Fixup) (data : List Nat) :
    ((appendFixup f data).length = data.length + 9 ↔ 32767 < f.target.off) ∧
    ((appendFixup f data).length = data.length + 7 ↔ f.target.off ≤ 32767) ∧
    (f.target.off < 0 →
      appendFixup f data = data ++ [f.srcType % 256, 0] ++ le2 (u16ofInt f.src) ++
        [u8ofInt f.target.obj] ++ le2 (u16ofInt f.target.off)) := by
  by_cases hoff : 32767 < f.target.off
  · refine ⟨?_, ?_, fun hneg => absurd hoff (by omega)⟩
    · simp [appendFixup, hoff, le2, le4]
      try omega
    · simp [appendFixup, hoff, le2, le4]
      try omega
  · refine ⟨?_, ?_, fun hneg => ?_⟩
    · simp [appendFixup, hoff, le2, le4]
      try omega
    · simp [appendFixup, hoff, le2, le4]
      try omega
    · simp [appendFixup, hoff, le2]

/-- C10 witness: a fixup with target offset `-2` is encoded in 7 bytes with
flags `0`, and its offset bytes read back as `0xFFFE` (sign lost). -/
theorem c10_witness :
    appendFixup ⟨7, 0, ⟨1, -2⟩, 0⟩ [] = [7, 0, 0, 0, 1, 254, 255] := by
  have h := (c10_fixup_encoding ⟨7, 0, ⟨1, -2⟩, 0⟩ []).2.2 (by decide)
  rw [h]
  rfl

/-- C5: whenever `addRelocation` appends a fixup to object `i`, that fixup
is not a `Relative32` fixup targeting object `i` itself: intra-object
PC-relative relocations are skipped before any fixup is built, and
`R_386_32` relocations produce `Offset32` fixups. -/
theorem c5_no_intra_object_relative (rel : Rel32) (segs : List Segment)
    (syms : List SymbolRes) (i : Int) (f : Fixup)
    (h : addRelocation rel segs syms = .ok (some (i, f))) :
    ¬(f.srcType = srcRelative32 ∧ f.target.obj = i) := by
  rintro ⟨h1, h2⟩
  simp only [addRelocation] at h
  split at h
  · simp at h
  · split at h
    · simp at h
    · split at h
      · simp at h
      · split at h
        · simp at h
        · split at h
          · simp only [Except.ok.injEq, Option.some.injEq, Prod.mk.injEq] at h
            obtain ⟨hA, hB⟩ := h
            rw [← hB] at h1
            simp [srcOffset32, srcRelative32] at h1
          · split at h
            · split at h
              · simp at h
              · rename_i hg
                simp only [Except.ok.injEq, Option.some.injEq, Prod.mk.injEq] at h
                obtain ⟨hA, hB⟩ := h
                rw [← hB] at h2
                exact hg ((h2 : _ = i).trans hA.symm)
            · simp at h

/-- C5 witness: a concrete `R_386_32` relocation that does produce a fixup;
the produced fixup is not an intra-object `Relative32` fixup. -/
theorem c5_witness :
    ¬((⟨7, 4, ⟨2, -131072⟩, 0⟩ : Fixup).srcType = srcRelative32 ∧
      (⟨7, 4, ⟨2, -131072⟩, 0⟩ : Fixup).target.obj = 1) :=
  c5_no_intra_object_relative ⟨65540, 257⟩
    [⟨65536, 64, []⟩, ⟨131072, 64, []⟩] [⟨131080, ⟨2, 8⟩, 5⟩] 1
    ⟨7, 4, ⟨2, -131072⟩, 0⟩ rfl

/-- C6: for an `R_386_32` relocation whose 4-byte site is contained in a
segment and whose symbol is resolved (object neither 0 nor the absolute
sentinel), `addRelocation` appends exactly one fixup to that segment's
object, with `src_type = Offset32`, `src = offset - segment.base`,
`target.obj = sym.ref.obj`,
`target.off = sym.ref.off + (val - sym.elf_value)` (where `val` is the
little-endian `u32` stored at the site, all arithmetic as in the source's
`uint32`/`int32` operations), and `add = 0`. -/
theorem c6_r386_32_fixup (rel : Rel32) (segs : List Segment)
    (syms : List SymbolRes) (i : Int) (seg : Segment)
    (hfs : findSourceSegment segs ⟨rel.off, 4⟩ = some (i, seg))
    (hb1 : 1 ≤ rel.info >>> 8) (hb2 : rel.info >>> 8 ≤ syms.length)
    (h3 : (symLookup syms (rel.info >>> 8)).ref.obj ≠ 0)
    (h4 : (symLookup syms (rel.info >>> 8)).ref.obj ≠ objAbsolute)
    (h5 : rel.info % 256 = 1) :
    addRelocation rel segs syms = .ok (some (i,
      { srcType := srcOffset32,
        src := toInt32 (u32sub rel.off seg.addr),
        target := { obj := (symLookup syms (rel.info >>> 8)).ref.obj,
                    off := wrap32 ((symLookup syms (rel.info >>> 8)).ref.off +
                      toInt32 (u32sub
                        (leU32 seg.data (toInt32 (u32sub rel.off seg.addr)).toNat)
                        (symLookup syms (rel.info >>> 8)).addr)) },
        add := 0 })) := by
  simp only [addRelocation, hfs]
  rw [if_neg (by omega : ¬(rel.info >>> 8 = 0 ∨ syms.length < rel.info >>> 8)),
    if_neg h3, if_neg h4, if_pos h5]

/-- C6 witness at a concrete cross-object `R_386_32` relocation. -/
theorem c6_witness :
    addRelocation ⟨65540, 257⟩ [⟨65536, 64, []⟩, ⟨131072, 64, []⟩]
      [⟨131080, ⟨2, 8⟩, 5⟩] = .ok (some (1, ⟨7, 4, ⟨2, -131072⟩, 0⟩)) := by
  have h := c6_r386_32_fixup ⟨65540, 257⟩ [⟨65536, 64, []⟩, ⟨131072, 64, []⟩]
    [⟨131080, ⟨2, 8⟩, 5⟩] 1 ⟨65536, 64, []⟩ (by decide) (by decide) (by decide)
    (by decide) (by decide) (by decide)
  rw [h]
  rfl

/-- C7: a symbol whose ELF section is `SHN_ABS` (when the file has at most
`0xfff1` sections, so the section index is not a valid table index) is
resolved to the `objAbsolute` sentinel `0x7FFFFFFF`; and a relocation whose
resolved symbol carries that sentinel is skipped by `addRelocation` with no
fixup and no error. -/
theorem c7_absolute_symbols :
    (∀ (secObjects : List Int) (segs : List SegmentIdx) (sym : ElfSym),
      sym.section_ = SHN_ABS → (secObjects.length : Int) ≤ SHN_ABS →
      resolveOneSymbol secObjects segs sym =
        .ok ⟨sym.value, ⟨objAbsolute, 0⟩, sym.name⟩) ∧
    (∀ (rel : Rel32) (segs : List Segment) (syms : List SymbolRes),
      1 ≤ rel.info >>> 8 → rel.info >>> 8 ≤ syms.length →
      (symLookup syms (rel.info >>> 8)).ref.obj = objAbsolute →
      addRelocation rel segs syms = .ok none) := by
  constructor
  · intro secObjects segs sym hsec hlen
    have hs : sym.section_ = 65521 := by
      rw [hsec]
      rfl
    have hl : (secObjects.length : Int) ≤ 65521 := by
      simpa [SHN_ABS] using hlen
    unfold resolveOneSymbol
    rw [if_neg (by omega : ¬(0 ≤ sym.section_ ∧ sym.section_ < (secObjects.length : Int))),
      if_pos hsec]
  · intro rel segs syms hb1 hb2 habs
    simp only [addRelocation]
    split
    · rfl
    · rw [if_neg (by omega : ¬(rel.info >>> 8 = 0 ∨ syms.length < rel.info >>> 8)),
        if_neg (by rw [habs]; unfold objAbsolute; omega), if_pos habs]

/-- C7 witness: a concrete `SHN_ABS` symbol and a concrete relocation
against an absolute symbol. -/
theorem c7_witness :
    resolveOneSymbol [0] [⟨65536, 64, 0⟩] ⟨1234, SHN_ABS, 9⟩ =
      .ok ⟨1234, ⟨objAbsolute, 0⟩, 9⟩ ∧
    addRelocation ⟨65540, 257⟩ [⟨65536, 64, []⟩] [⟨9, ⟨objAbsolute, 0⟩, 5⟩] =
      .ok none :=
  ⟨c7_absolute_symbols.1 [0] [⟨65536, 64, 0⟩] ⟨1234, SHN_ABS, 9⟩ rfl (by decide),
   c7_absolute_symbols.2 ⟨65540, 257⟩ [⟨65536, 64, []⟩] [⟨9, ⟨objAbsolute, 0⟩, 5⟩]
     (by decide) (by decide) (by decide)⟩

/-- C8: a fixup is appended only when a segment's range contains the whole
interval `[offset, offset+4)`, so (absent `uint32` overflow in the segment
bounds) the appended fixup satisfies `0 ≤ src` and
`src + 4 ≤ segment.size` — the containing object's `virtual_size`; and a
relocation whose site is contained in no segment is silently skipped. -/
theorem c8_src_bounds :
    (∀ (rel : Rel32) (segs : List Segment) (syms : List SymbolRes)
      (i j : Int) (seg : Segment) (f : Fixup),
      findSourceSegment segs ⟨rel.off, 4⟩ = some (i, seg) →
      seg.addr + seg.size < 4294967296 → seg.size ≤ 2147483648 →
      rel.off + 4 < 4294967296 →
      addRelocation rel segs syms = .ok (some (j, f)) →
      0 ≤ f.src ∧ f.src + 4 ≤ (seg.size : Int)) ∧
    (∀ (rel : Rel32) (segs : List Segment) (syms : List SymbolRes),
      findSourceSegment segs ⟨rel.off, 4⟩ = none →
      addRelocation rel segs syms = .ok none) := by
  constructor
  · intro rel segs syms i j seg f hfs hov1 hov2 hov3 h
    have hc := findSourceSegmentGo_containsRange segs ⟨rel.off, 4⟩ 1 i seg hfs
    unfold AddrRange.containsRange at hc
    rw [u32_eq_of_lt hov3, u32_eq_of_lt hov1] at hc
    have hc' : seg.addr ≤ rel.off ∧ rel.off + 4 ≤ seg.addr + seg.size := by
      simpa using hc
    have hsrc : toInt32 (u32sub rel.off seg.addr) = ((rel.off : Int) - (seg.addr : Int)) :=
      toInt32_u32sub hc'.1 (by omega)
    have hgoal : 0 ≤ toInt32 (u32sub rel.off seg.addr) ∧
        toInt32 (u32sub rel.off seg.addr) + 4 ≤ (seg.size : Int) := by
      rw [hsrc]
      constructor
      · omega
      · omega
    simp only [addRelocation, hfs] at h
    split at h
    · simp at h
    · split at h
      · simp at h
      · split at h
        · simp at h
        · split at h
          · simp only [Except.ok.injEq, Option.some.injEq, Prod.mk.injEq] at h
            obtain ⟨-, hB⟩ := h
            rw [← hB]
            exact hgoal
          · split at h
            · split at h
              · simp at h
              · simp only [Except.ok.injEq, Option.some.injEq, Prod.mk.injEq] at h
                obtain ⟨-, hB⟩ := h
                rw [← hB]
                exact hgoal
            · simp at h
  · intro rel segs syms hfs
    simp only [addRelocation, hfs]

/-- C8 witness at a concrete in-bounds relocation, plus nothing to witness
for the skip conjunct beyond a no-segment input. -/
theorem c8_witness :
    (0 ≤ (⟨7, 4, ⟨2, -131072⟩, 0⟩ : Fixup).src ∧
      (⟨7, 4, ⟨2, -131072⟩, 0⟩ : Fixup).src + 4 ≤ ((64 : Nat) : Int)) ∧
    addRelocation ⟨999999, 257⟩ [⟨65536, 64, []⟩] [⟨131080, ⟨2, 8⟩, 5⟩] = .ok none :=
  ⟨c8_src_bounds.1 ⟨65540, 257⟩ [⟨65536, 64, []⟩, ⟨131072, 64, []⟩]
      [⟨131080, ⟨2, 8⟩, 5⟩] 1 1 ⟨65536, 64, []⟩ ⟨7, 4, ⟨2, -131072⟩, 0⟩
      (by decide) (by decide) (by decide) (by decide) rfl,
   c8_src_bounds.2 ⟨999999, 257⟩ [⟨65536, 64, []⟩] [⟨131080, ⟨2, 8⟩, 5⟩] (by decide)⟩

/-- C9: `hasAddr` uses an inclusive upper bound — absent `uint32` overflow,
`hasAddr x a` holds iff `x.addr ≤ a ≤ x.addr + x.size` — so an address one
past a segment's end still resolves: when earlier segments do not claim the
address `base + size`, `resolveAddr` maps it to that segment with
`off = size` (exactly the `_stack_end`-at-object-end case; the resulting
object index is nonzero, so conversion's `stack.obj == 0` check passes). -/
theorem c9_has_addr_inclusive :
    (∀ (x : AddrRange) (a : Nat), x.addr + x.size < 4294967296 →
      (x.hasAddr a = true ↔ x.addr ≤ a ∧ a ≤ x.addr + x.size)) ∧
    (∀ (pre : List AddrRange) (s : AddrRange) (post : List AddrRange),
      (∀ p ∈ pre, p.hasAddr (s.addr + s.size) = false) →
      s.addr + s.size < 4294967296 → s.size < 2147483648 →
      resolveAddr (pre ++ s :: post) (s.addr + s.size) =
        ⟨((pre.length + 1 : Nat) : Int), (s.size : Int)⟩) := by
  constructor
  · intro x a hov
    unfold AddrRange.hasAddr
    rw [u32_eq_of_lt hov]
    simp
  · intro pre s post hpre hov hsz
    have hs : s.hasAddr (s.addr + s.size) = true := by
      unfold AddrRange.hasAddr
      rw [u32_eq_of_lt hov]
      simp
    unfold resolveAddr
    rw [resolveAddrGo_append pre s post (s.addr + s.size) 0 hpre hs]
    rw [toInt32_u32sub (by omega) (by omega)]
    congr 1 <;> omega

/-- C9 witness: the address one past the end of the second segment resolves
to it, with offset equal to its size. -/
theorem c9_witness :
    (AddrRange.hasAddr ⟨4096, 32⟩ 4128 = true ↔ 4096 ≤ 4128 ∧ 4128 ≤ 4096 + 32) ∧
    resolveAddr [⟨0, 16⟩, ⟨4096, 32⟩] 4128 = ⟨2, 32⟩ := by
  constructor
  · exact c9_has_addr_inclusive.1 ⟨4096, 32⟩ 4128 (by decide)
  · exact c9_has_addr_inclusive.2 [⟨0, 16⟩] ⟨4096, 32⟩ [] (by decide) (by decide)
      (by decide)

end Elf2Dos
